import Mathlib

/-!
Shallow embedding of PrismaTC (src/PrismaTC/main.c), a per-column rhythm-game
key scheduler.  Machine integers of the C source are modelled as `Int`
(no arithmetic in the program approaches 32-bit overflow for in-scope inputs),
the double-precision intermediate values of the jitter generator are modelled
over `ℚ` with the Box-Muller transcendental part kept symbolic, and the
global mutable state (stop flag, key table) is passed explicitly.
-/

namespace PrismaTC

/-- Embedding of `struct HitObject` (main.c:12-14): one chart note. -/
structure HitObject where
  x : ℤ
  y : ℤ
  timestamp : ℤ
  object_type : ℤ
  end_time : ℤ
deriving DecidableEq, Repr

instance : Inhabited HitObject := ⟨⟨0, 0, 0, 0, 0⟩⟩

/-- Embedding of `KeyState` (main.c:20-25); the `press_time`/`release_time`
fields of the C struct are never read or written anywhere in the source, so
they are omitted. -/
structure KeyState where
  key : ℕ
  is_pressed : Bool
deriving DecidableEq, Repr

instance : Inhabited KeyState := ⟨⟨0, false⟩⟩

/-- `keyStates[MAX_KEYS]` (main.c:27) is a zero-initialised global array:
all keys 0, all `is_pressed` FALSE. -/
def initKeyStates : List KeyState := List.replicate 9 ⟨0, false⟩

/-- The default key table `keys[]` of `setupKeyBindings` (main.c:58):
`{'A','S','D','F',VK_SPACE,'J','K','L',VK_OEM_1}` as virtual-key codes. -/
def defaultKeys : List ℕ := [65, 83, 68, 70, 32, 74, 75, 76, 186]

/-- One array store `keyStates[i].key = k`.  `List.set` is a no-op out of
bounds, matching the in-bounds-only usage of the C code. -/
def setKeyAt (ks : List KeyState) (i : ℕ) (k : ℕ) : List KeyState :=
  ks.set i ⟨k, (ks.getD i default).is_pressed⟩

/-- Embedding of `setupKeyBindings` (main.c:57-85).  The two C `for` loops that
walk outward from the middle index are rendered as folds over their iteration
counts: the left loop visits `i = middleIndex-1-j` with `keyIndex = 3-j`, the
right loop visits `i = middleIndex+1+j` (odd count) or `i = middleIndex+j`
(even count) with `keyIndex = 5+j`. -/
def setupKeyBindings (columnCount : ℕ) (customKeys : Option (List ℕ))
    (ks : List KeyState) : List KeyState :=
  let middleIndex := columnCount / 2
  match customKeys with
  | some ck => (List.range columnCount).foldl (fun s i => setKeyAt s i (ck.getD i 0)) ks
  | none =>
    if columnCount % 2 = 1 then
      let s0 := setKeyAt ks middleIndex 32
      let s1 := (List.range middleIndex).foldl
        (fun s j => setKeyAt s (middleIndex - 1 - j) (defaultKeys.getD (3 - j) 0)) s0
      (List.range (columnCount - middleIndex - 1)).foldl
        (fun s j => setKeyAt s (middleIndex + 1 + j) (defaultKeys.getD (5 + j) 0)) s1
    else
      let s1 := (List.range middleIndex).foldl
        (fun s j => setKeyAt s (middleIndex - 1 - j) (defaultKeys.getD (3 - j) 0)) ks
      (List.range (columnCount - middleIndex)).foldl
        (fun s j => setKeyAt s (middleIndex + j) (defaultKeys.getD (5 + j) 0)) s1

/-- The key bound to lane `i` after default binding for `columnCount` lanes. -/
def boundKey (columnCount i : ℕ) : ℕ :=
  ((setupKeyBindings columnCount none initKeyStates).getD i default).key

/-- C cast `(int)q` of a non-integral double: truncation toward zero. -/
def truncToInt (q : ℚ) : ℤ :=
  if 0 ≤ q then ⌊q⌋ else ⌈q⌉

/-- `RAND_MAX` of the MSVC C runtime targeted by the source. -/
def RAND_MAX : ℕ := 32767

/-- Control-flow trace of `generateBellCurveOffset` (main.c:94-99).  The body
draws `u1 = rand()/RAND_MAX` and `u2 = rand()/RAND_MAX` — exactly two draws,
with no loop — and immediately computes `sqrt(-2*log(u1))*cos(2*PI*u2)`.
There is no `u1 > 0` guard and no resampling, so the trace records the two
uniforms, the number of `rand()` calls consumed, and whether `log` receives a
non-positive argument (the domain-error case `u1 = 0`). -/
structure BellTrace where
  u1 : ℚ
  u2 : ℚ
  drawsConsumed : ℕ
  logDomainError : Bool
deriving DecidableEq, Repr

/-- Embedding of `generateBellCurveOffset`'s draw structure (main.c:94-99),
over a stream `rands` of `rand()` outputs in `[0, RAND_MAX]`. -/
def generateBellCurveOffset (rands : ℕ → ℕ) : BellTrace :=
  let u1 : ℚ := (rands 0 : ℚ) / (RAND_MAX : ℚ)
  let u2 : ℚ := (rands 1 : ℚ) / (RAND_MAX : ℚ)
  ⟨u1, u2, 2, decide (u1 ≤ 0)⟩

/-- Value part of `generateBellCurveOffset` (main.c:98):
`return (int)(z * maxOffset / 3.0)`, with the Box-Muller variate
`z = sqrt(-2*log(u1))*cos(2*PI*u2)` kept symbolic (it is a finite real for any
draw with `u1 > 0`; only its multiplier structure matters to the claims). -/
def generateBellCurveOffsetVal (z : ℚ) (maxOffset : ℤ) : ℤ :=
  truncToInt (z * (maxOffset : ℚ) / 3)

/-- Press-time computation of `columnPlayer` (main.c:121):
`pressTime = obj->timestamp - data->startTimeAdjustment + pressOffset + timingShift`. -/
def computePressTime (obj : HitObject) (startTimeAdjustment pressOffset shift : ℤ) : ℤ :=
  obj.timestamp - startTimeAdjustment + pressOffset + shift

/-- Release-time computation of `columnPlayer` (main.c:122-126): hold notes
(`object_type == 128`) use `end_time`, taps use `pressTime + 50`, each plus the
release jitter (taps do not re-add `timingShift`); then, when a next object
exists in the lane, the result is clamped to
`nextObj->timestamp - startTimeAdjustment - 5`. -/
def computeReleaseTime (obj : HitObject) (nextObj : Option HitObject)
    (startTimeAdjustment pressOffset releaseOffset shift : ℤ) : ℤ :=
  let pressTime := computePressTime obj startTimeAdjustment pressOffset shift
  let raw : ℤ :=
    if obj.object_type = 128 then obj.end_time - startTimeAdjustment + releaseOffset + shift
    else pressTime + 50 + releaseOffset
  match nextObj with
  | some n =>
      if raw > n.timestamp - startTimeAdjustment - 5 then
        n.timestamp - startTimeAdjustment - 5
      else raw
  | none => raw

/-- Auto-detection scan of `clickHitObjects` (main.c:192-206): walk the
positions in input order, appending each value not yet collected while fewer
than `MAX_KEYS = 9` columns are held. -/
def collectCols : List ℤ → List ℤ → List ℤ
  | [], cols => cols
  | x :: rest, cols =>
      if x ∉ cols ∧ cols.length < 9 then collectCols rest (cols ++ [x])
      else collectCols rest cols

/-- Column construction of `clickHitObjects` (main.c:186-206): an explicit
count in `(0, MAX_KEYS]` yields evenly spaced centers
`(int)((i + 0.5) * 512.0 / expectedColumnCount)`; any other value falls into
the `else` branch, auto-detecting columns from the objects' x positions. -/
def computeColumns (hitObjects : List HitObject) (expectedColumnCount : ℤ) : List ℤ :=
  if 0 < expectedColumnCount ∧ expectedColumnCount ≤ 9 then
    (List.range expectedColumnCount.toNat).map
      (fun i => truncToInt (((i : ℚ) + 1/2) * (512 / (expectedColumnCount : ℚ))))
  else
    collectCols (hitObjects.map (fun o => o.x)) []

/-- `qsort(columns, columnCount, sizeof(int), compare_ints)` (main.c:208):
the columns sorted ascending. -/
def detectedColumns (hitObjects : List HitObject) (expectedColumnCount : ℤ) : List ℤ :=
  List.insertionSort (fun a b : ℤ => a ≤ b) (computeColumns hitObjects expectedColumnCount)

/-- Number of `columnPlayer` threads spawned by `clickHitObjects`
(main.c:231-240): one per detected column. -/
def spawnedLaneCount (hitObjects : List HitObject) (expectedColumnCount : ℤ) : ℕ :=
  (detectedColumns hitObjects expectedColumnCount).length

/-- Embedding of `getKeyIndex` (main.c:87-92): index of the first column equal
to `x`, `none` for the C sentinel `-1`. -/
def getKeyIndex (x : ℤ) (columns : List ℤ) : Option ℕ :=
  columns.findIdx? (fun c => c == x)

/-- One iteration of the bucketing loop of `clickHitObjects` (main.c:219-225):
append the object to its column's bucket when the column exists and the bucket
is below `MAX_OBJECTS_PER_COLUMN = 9999`; otherwise drop it silently. -/
def bucketStep (columns : List ℤ) (lanes : ℕ → List HitObject) (o : HitObject) :
    ℕ → List HitObject :=
  match getKeyIndex o.x columns with
  | none => lanes
  | some idx =>
      if (lanes idx).length < 9999 then Function.update lanes idx (lanes idx ++ [o])
      else lanes

/-- The per-column buckets `columnObjects` built by main.c:219-225, as a
function from column index to that column's object list. -/
def bucketObjects (columns : List ℤ) (objs : List HitObject) : ℕ → List HitObject :=
  objs.foldl (bucketStep columns) (fun _ => [])

example : detectedColumns [⟨320, 0, 0, 1, 0⟩, ⟨64, 0, 0, 1, 0⟩, ⟨448, 0, 0, 1, 0⟩,
    ⟨192, 0, 0, 1, 0⟩] 0 = [64, 192, 320, 448] := by decide
example : detectedColumns [] 4 = [64, 192, 320, 448] := by
  norm_num [detectedColumns, computeColumns, truncToInt, List.range_succ]
example : spawnedLaneCount [⟨64, 0, 1000, 1, 0⟩] 10 = 1 := by decide
example : bucketObjects [64] [⟨64, 0, 2000, 1, 0⟩, ⟨64, 0, 1000, 1, 0⟩] 0 =
    [⟨64, 0, 2000, 1, 0⟩, ⟨64, 0, 1000, 1, 0⟩] := by decide

/-- A key-down or key-up event emitted through `pressKey`/`releaseKey`
(main.c:38-51), tagged with the virtual-key code. -/
inductive Ev where
  | press (key : ℕ)
  | release (key : ℕ)
deriving DecidableEq, Repr

/-- Environment of one iteration of the `columnPlayer` object loop
(main.c:109-149): the value of the volatile `stopClicking` flag at the
top-of-loop check (main.c:110), and the sequence of flag values read inside
the press busy-wait (main.c:128-132) and the release busy-wait
(main.c:139-143).  The lists' lengths abstract how many polls each busy-wait
performs before the clock reaches the target time. -/
structure ObjOracle where
  topFlag : Bool
  pressWaitFlags : List Bool
  releaseWaitFlags : List Bool
deriving DecidableEq, Repr

/-- Event-trace embedding of the `columnPlayer` loop (main.c:109-149), one
oracle per hit object in the lane.  Returns the emitted events, whether the
thread returned early on an observed stop flag, and the final `is_pressed`
value of the lane's `KeyState` (initially FALSE from the zero-initialised
global array).  A `true` read at any check makes the function `return 0`
immediately: a `true` during the press wait skips the press; a `true` during
the release wait leaves the key pressed (`is_pressed` still TRUE when
clicking is enabled). -/
def playObjects (enable : Bool) (key : ℕ) : List ObjOracle → List Ev × Bool × Bool
  | [] => ([], false, false)
  | o :: rest =>
      if o.topFlag then ([], true, false)
      else if o.pressWaitFlags.contains true then ([], true, false)
      else
        let evs1 : List Ev := if enable then [Ev.press key] else []
        if o.releaseWaitFlags.contains true then (evs1, true, enable)
        else
          let evs2 : List Ev := evs1 ++ (if enable then [Ev.release key] else [])
          let r := playObjects enable key rest
          (evs2 ++ r.1, r.2.1, r.2.2)

/-- An oracle under which no check ever observes the stop flag set. -/
def cleanOracle (o : ObjOracle) : Prop :=
  o.topFlag = false ∧ true ∉ o.pressWaitFlags ∧ true ∉ o.releaseWaitFlags

instance (o : ObjOracle) : Decidable (cleanOracle o) := by
  unfold cleanOracle; infer_instance

/-- Events of a lane player that completes `n` objects without observing the
stop flag: a press/release pair per object when clicking is enabled. -/
def completedEvents (enable : Bool) (key : ℕ) : ℕ → List Ev
  | 0 => []
  | n + 1 => (if enable then [Ev.press key, Ev.release key] else []) ++
      completedEvents enable key n

/-- Events emitted by the object iteration in which the stop flag is first
observed: nothing if it is seen at the top check or during the press wait; the
lone press if it is seen during the release wait after an enabled press. -/
def abortEvents (enable : Bool) (key : ℕ) (o : ObjOracle) : List Ev :=
  if o.topFlag then []
  else if o.pressWaitFlags.contains true then []
  else if enable then [Ev.press key] else []

/-- Final `is_pressed` of the iteration in which the stop flag is observed:
TRUE exactly when the abort happened during the release wait with clicking
enabled. -/
def abortPressed (enable : Bool) (o : ObjOracle) : Bool :=
  if o.topFlag then false
  else if o.pressWaitFlags.contains true then false
  else if o.releaseWaitFlags.contains true then enable
  else false

/-- Embedding of `releaseAllKeys` (main.c:154-161): emits a key-up for every
entry whose `is_pressed` is TRUE, clearing the flag, in table order. -/
def releaseAllKeys : List KeyState → List Ev × List KeyState
  | [] => ([], [])
  | s :: rest =>
      let r := releaseAllKeys rest
      if s.is_pressed then (Ev.release s.key :: r.1, ⟨s.key, false⟩ :: r.2)
      else (r.1, s :: r.2)

/-- The process-global state touched by `setStopClicking`: the volatile
`stopClicking` flag (main.c:16) and the `keyStates` table (main.c:27). -/
structure SysState where
  stopClicking : Bool
  keyStates : List KeyState
deriving DecidableEq, Repr

/-- Embedding of `setStopClicking` (main.c:163-166): store `value` into the
flag, then unconditionally run `releaseAllKeys`.  Returns the emitted key-up
events and the new state. -/
def setStopClicking (value : Bool) (st : SysState) : List Ev × SysState :=
  let r := releaseAllKeys st.keyStates
  (r.1, ⟨value, r.2⟩)

/-- Initial value of the process-global jitter amplitude
`volatile int offset = 30` (main.c:18). -/
def offsetInitial : ℤ := 30

/-- Embedding of `struct ThreadData` (main.c:29-36), as filled in by
`clickHitObjects` (main.c:231-240).  Its `offset` field is written there but
never read by `columnPlayer`, whose jitter draws use the global amplitude. -/
structure ThreadData where
  objects : List HitObject
  count : ℕ
  columnIndex : ℕ
  startTimeAdjustment : ℤ
  enableClicking : Bool
  offset : ℤ
deriving DecidableEq, Repr

/-- The press/release times `columnPlayer` computes for each object of a lane
(main.c:118-126), with the Box-Muller variates of the two per-object jitter
draws supplied by the oracle `zs` and the amplitude taken from the process
global `offset` (main.c:118-119 read the global, not `data->offset`). -/
def columnSchedule (td : ThreadData) (globalOffset shift : ℤ) (zs : ℕ → ℚ × ℚ) :
    List (ℤ × ℤ) :=
  (List.range td.objects.length).map (fun j =>
    let obj := td.objects.getD j default
    let nextObj := (td.objects.drop (j + 1)).head?
    let pOff := generateBellCurveOffsetVal (zs j).1 globalOffset
    let rOff := generateBellCurveOffsetVal (zs j).2 globalOffset
    (computePressTime obj td.startTimeAdjustment pOff shift,
     computeReleaseTime obj nextObj td.startTimeAdjustment pOff rOff shift))

/-- Host-observable outcome of one `clickHitObjects` call (main.c:180-251):
the sorted column positions, the key-binding table, the per-lane buckets, and
the per-lane press/release schedules the spawned `columnPlayer` threads
compute.  The signature keeps the C parameter list: `unused1`, `unused2` and
the per-call `offsetArg` (the shadowing `int offset` parameter) are accepted
and, like the C code, only ever copied into `ThreadData.offset`, which nothing
reads; jitter amplitude comes from the process global `globalOffset`. -/
def clickHitObjects (hitObjects : List HitObject) (unused1 unused2 : ℤ)
    (startTimeAdjustment : ℤ) (enableClicking : Bool) (offsetArg : ℤ)
    (expectedColumnCount : ℤ) (customKeys : Option (List ℕ))
    (globalOffset shift : ℤ) (zs : ℕ → ℕ → ℚ × ℚ) :
    List ℤ × List KeyState × List (List HitObject) × List (List (ℤ × ℤ)) :=
  let columns := detectedColumns hitObjects expectedColumnCount
  let ks := setupKeyBindings columns.length customKeys initKeyStates
  let buckets := (List.range columns.length).map (fun i => bucketObjects columns hitObjects i)
  let schedules := (List.range columns.length).map (fun i =>
    columnSchedule
      (ThreadData.mk (bucketObjects columns hitObjects i)
        (bucketObjects columns hitObjects i).length i startTimeAdjustment
        enableClicking offsetArg)
      globalOffset shift (zs i))
  (columns, ks, buckets, schedules)

/-! ## Helper lemmas -/

/-- With jitter amplitude 0, every jitter draw returns 0 (for any finite
Box-Muller variate `z`): `(int)(z * 0 / 3.0) = 0`. -/
theorem generateBellCurveOffsetVal_zero (z : ℚ) : generateBellCurveOffsetVal z 0 = 0 := by
  simp [generateBellCurveOffsetVal, truncToInt]

/-- `releaseAllKeys` emits a key-up for every entry it finds pressed. -/
theorem releaseAllKeys_mem_release : ∀ (ks : List KeyState) (s : KeyState),
    s ∈ ks → s.is_pressed = true → Ev.release s.key ∈ (releaseAllKeys ks).1 := by
  intro ks
  induction ks with
  | nil => intro s hs; simp at hs
  | cons a rest ih =>
      intro s hs hp
      rcases List.mem_cons.mp hs with h | h
      · subst h
        simp [releaseAllKeys, hp]
      · unfold releaseAllKeys
        split_ifs with ha <;> simp [ih s h hp]

/-- After `releaseAllKeys` every entry of the table reads unpressed. -/
theorem releaseAllKeys_clears : ∀ (ks : List KeyState) (s : KeyState),
    s ∈ (releaseAllKeys ks).2 → s.is_pressed = false := by
  intro ks
  induction ks with
  | nil => intro s hs; simp [releaseAllKeys] at hs
  | cons a rest ih =>
      intro s hs
      unfold releaseAllKeys at hs
      split_ifs at hs with ha
      · rcases List.mem_cons.mp hs with h | h
        · subst h; rfl
        · exact ih s h
      · rcases List.mem_cons.mp hs with h | h
        · subst h; simpa using ha
        · exact ih s h

/-- `releaseAllKeys` on a table with no pressed entry emits nothing. -/
theorem releaseAllKeys_no_pressed : ∀ ks : List KeyState,
    (∀ s ∈ ks, s.is_pressed = false) → (releaseAllKeys ks).1 = [] := by
  intro ks
  induction ks with
  | nil => intro h; rfl
  | cons a rest ih =>
      intro h
      have ha : a.is_pressed = false := h a (List.mem_cons_self a rest)
      unfold releaseAllKeys
      rw [if_neg (by simp [ha])]
      exact ih (fun s hs => h s (List.mem_cons_of_mem a hs))

/-- Every lane bucket produced by the partitioning fold is a sublist of the
already-processed prefix of the input (buckets only ever append objects in
input order). -/
theorem bucketFold_sublist : ∀ (columns : List ℤ) (objs : List HitObject)
    (lanes : ℕ → List HitObject) (pref : List HitObject),
    (∀ j, List.Sublist (lanes j) pref) →
    ∀ i, List.Sublist (objs.foldl (bucketStep columns) lanes i) (pref ++ objs) := by
  intro columns objs
  induction objs with
  | nil => intro lanes pref h i; simpa using h i
  | cons o rest ih =>
      intro lanes pref h i
      have step : ∀ j, List.Sublist (bucketStep columns lanes o j) (pref ++ [o]) := by
        intro j
        cases hgk : getKeyIndex o.x columns with
        | none =>
            simp only [bucketStep, hgk]
            exact (h j).trans (List.sublist_append_left _ _)
        | some idx =>
            simp only [bucketStep, hgk]
            split_ifs with hlen
            · by_cases hj : j = idx
              · subst hj
                rw [Function.update_same]
                exact (h j).append (List.Sublist.refl [o])
              · rw [Function.update_noteq hj]
                exact (h j).trans (List.sublist_append_left _ _)
            · exact (h j).trans (List.sublist_append_left _ _)
      have hmain := ih (bucketStep columns lanes o) (pref ++ [o]) step i
      simpa [List.append_assoc] using hmain

/-- The auto-detection scan never collects a duplicate position. -/
theorem collectCols_nodup : ∀ (xs cols : List ℤ), cols.Nodup → (collectCols xs cols).Nodup := by
  intro xs
  induction xs with
  | nil => intro cols h; simpa [collectCols] using h
  | cons x rest ih =>
      intro cols h
      unfold collectCols
      split_ifs with hx
      · exact ih _ (by simp [List.nodup_append, h, hx.1])
      · exact ih _ h

/-- As long as the total number of distinct positions (those already collected
plus those still to scan) stays within the 9-column cap, the scan collects
exactly the distinct positions of its input. -/
theorem collectCols_toFinset : ∀ (xs cols : List ℤ), cols.Nodup →
    (cols.toFinset ∪ xs.toFinset).card ≤ 9 →
    (collectCols xs cols).toFinset = cols.toFinset ∪ xs.toFinset := by
  intro xs
  induction xs with
  | nil => intro cols h hc; simp [collectCols]
  | cons x rest ih =>
      intro cols h hc
      have hset : cols.toFinset ∪ (x :: rest).toFinset =
          insert x (cols.toFinset ∪ rest.toFinset) := by
        simp [List.toFinset_cons, Finset.union_insert]
      unfold collectCols
      by_cases hx : x ∈ cols
      · rw [if_neg (by simp [hx])]
        have hxf : x ∈ cols.toFinset ∪ rest.toFinset :=
          Finset.mem_union_left _ (List.mem_toFinset.mpr hx)
        have hins : insert x (cols.toFinset ∪ rest.toFinset) =
            cols.toFinset ∪ rest.toFinset := Finset.insert_eq_self.mpr hxf
        rw [hset, hins]
        exact ih cols h (by rw [hset, hins] at hc; exact hc)
      · by_cases hlen : cols.length < 9
        · rw [if_pos ⟨hx, hlen⟩]
          have hnd : (cols ++ [x]).Nodup := by simp [List.nodup_append, h, hx]
          have happ : (cols ++ [x]).toFinset = insert x cols.toFinset := by
            ext a; simp [List.toFinset_append, or_comm]
          have hset2 : (cols ++ [x]).toFinset ∪ rest.toFinset =
              insert x (cols.toFinset ∪ rest.toFinset) := by
            rw [happ, Finset.insert_union]
          rw [ih (cols ++ [x]) hnd (by rw [hset2, ← hset]; exact hc), hset2, ← hset]
        · exfalso
          have hcard : cols.toFinset.card = cols.length := List.toFinset_card_of_nodup h
          have hxf : x ∉ cols.toFinset := fun hmem => hx (List.mem_toFinset.mp hmem)
          have hsub : insert x cols.toFinset ⊆ cols.toFinset ∪ (x :: rest).toFinset := by
            intro a ha
            rcases Finset.mem_insert.mp ha with rfl | ha
            · exact Finset.mem_union_right _ (by simp)
            · exact Finset.mem_union_left _ ha
          have := Finset.card_le_card hsub
          rw [Finset.card_insert_of_not_mem hxf, hcard] at this
          omega

example : (List.range 9).map (boundKey 9) = [65, 83, 68, 70, 32, 74, 75, 76, 186] := by decide
example : (List.range 4).map (boundKey 4) = [68, 70, 74, 75] := by decide
example : (List.range 1).map (boundKey 1) = [32] := by decide
example : (List.range 7).map (boundKey 7) = [83, 68, 70, 32, 74, 75, 76] := by decide


/-- For any expected column count outside (0,9], `clickHitObjects` takes the
auto-detection branch and then sorts the collected positions. -/
theorem detectedColumns_auto (objs : List HitObject) (L : ℤ)
    (h : ¬ (0 < L ∧ L ≤ 9)) :
    detectedColumns objs L =
      List.insertionSort (fun a b : ℤ => a ≤ b)
        (collectCols (objs.map (fun o => o.x)) []) := by
  simp only [detectedColumns, computeColumns, if_neg h]

/-! ## Claim theorems -/

/-- C1 (counterexample): the partitioner does not sort lane buckets by
timestamp.  For the unordered host list with timestamps 2000, 1000 in one
auto-detected lane, the lane's bucket is [2000, 1000] — not non-decreasing. -/
theorem C1_cex :
    ¬ List.Sorted (fun a b : HitObject => a.timestamp ≤ b.timestamp)
      (bucketObjects
        (detectedColumns [⟨64, 0, 2000, 1, 0⟩, ⟨64, 0, 1000, 1, 0⟩] 0)
        [⟨64, 0, 2000, 1, 0⟩, ⟨64, 0, 1000, 1, 0⟩] 0) := by
  decide

/-- C1 (amended): bucketing is stable — each lane's bucket is a subsequence of
the host's list in input order — so whenever the host's list is in
non-decreasing timestamp order, every lane's bucket is too; no per-lane sort
is performed for unordered input. -/
theorem C1_lane_buckets_preserve_sorted_input :
    ∀ (columns : List ℤ) (objs : List HitObject) (i : ℕ),
    List.Sorted (fun a b : HitObject => a.timestamp ≤ b.timestamp) objs →
    List.Sorted (fun a b : HitObject => a.timestamp ≤ b.timestamp)
      (bucketObjects columns objs i) := by
  intro cs objs i h
  have hsub : List.Sublist (bucketObjects cs objs i) ([] ++ objs) :=
    bucketFold_sublist cs objs (fun _ => []) [] (fun j => List.nil_sublist []) i
  rw [List.nil_append] at hsub
  exact List.Pairwise.sublist hsub h

/-- Witness for C1: a sorted two-object host list yields a sorted lane 0. -/
theorem C1_witness :
    List.Sorted (fun a b : HitObject => a.timestamp ≤ b.timestamp)
      ([⟨64, 0, 1000, 1, 0⟩, ⟨64, 0, 2000, 1, 0⟩] : List HitObject) ∧
    List.Sorted (fun a b : HitObject => a.timestamp ≤ b.timestamp)
      (bucketObjects [64] [⟨64, 0, 1000, 1, 0⟩, ⟨64, 0, 2000, 1, 0⟩] 0) :=
  ⟨by decide,
   C1_lane_buckets_preserve_sorted_input [64]
     [⟨64, 0, 1000, 1, 0⟩, ⟨64, 0, 2000, 1, 0⟩] 0 (by decide)⟩

/-- C2 (counterexample): with timing shift −100 and zero press jitter for the
successor, the clamped release time 995 exceeds the successor's computed press
time 900 minus the 5 ms margin, so the claim fails for some timing-shift
values. -/
theorem C2_cex :
    ¬ (computeReleaseTime ⟨64, 0, 0, 1, 0⟩ (some ⟨64, 0, 1000, 1, 0⟩) 0 0 2000 (-100)
        ≤ computePressTime ⟨64, 0, 1000, 1, 0⟩ 0 0 (-100) - 5) := by
  decide

/-- C2 (amended): the conflict-resolution clamp bounds the release time by the
next object's adjusted timestamp minus 5 ms (no jitter or shift term); hence
release_i ≤ press_{i+1} − 5 holds exactly when the successor's press jitter
plus the timing shift is non-negative. -/
theorem C2_release_clamp_bound :
    ∀ (obj n : HitObject) (adj pOff rOff shift p2 : ℤ),
    computeReleaseTime obj (some n) adj pOff rOff shift ≤ n.timestamp - adj - 5 ∧
    (0 ≤ p2 + shift →
      computeReleaseTime obj (some n) adj pOff rOff shift ≤
        computePressTime n adj p2 shift - 5) := by
  intro obj n adj pOff rOff shift p2
  simp only [computeReleaseTime, computePressTime]
  constructor
  · split_ifs <;> omega
  · intro hge
    split_ifs <;> omega

/-- Witness for C2's amended theorem at zero successor jitter and shift. -/
theorem C2_witness :
    computeReleaseTime ⟨64, 0, 0, 1, 0⟩ (some ⟨64, 0, 1000, 1, 0⟩) 0 0 2000 0 ≤
      (1000 : ℤ) - 0 - 5 ∧
    computeReleaseTime ⟨64, 0, 0, 1, 0⟩ (some ⟨64, 0, 1000, 1, 0⟩) 0 0 2000 0 ≤
      computePressTime ⟨64, 0, 1000, 1, 0⟩ 0 0 0 - 5 :=
  ⟨(C2_release_clamp_bound ⟨64, 0, 0, 1, 0⟩ ⟨64, 0, 1000, 1, 0⟩ 0 0 2000 0 0).1,
   (C2_release_clamp_bound ⟨64, 0, 0, 1, 0⟩ ⟨64, 0, 1000, 1, 0⟩ 0 0 2000 0 0).2
     (by decide)⟩

/-- C3 (counterexample): an explicit lane count of 10 is not rejected — the
call falls into auto-detection and spawns one lane player for the single
detected position, contradicting fail-fast-with-no-lanes. -/
theorem C3_cex : spawnedLaneCount [⟨64, 0, 1000, 1, 0⟩] 10 ≠ 0 := by
  decide

/-- C3 (amended): an explicit lane count outside [1,9] is not rejected; the
code silently falls back to auto-detecting columns from the objects' x
positions, and spawns no lanes only when that detection finds none (e.g. an
empty object list). -/
theorem C3_out_of_range_falls_back :
    ∀ (objs : List HitObject) (L : ℤ), ¬ (0 < L ∧ L ≤ 9) →
    detectedColumns objs L =
      List.insertionSort (fun a b : ℤ => a ≤ b)
        (collectCols (objs.map (fun o => o.x)) []) ∧
    spawnedLaneCount [] L = 0 := by
  intro objs L h
  refine ⟨?_, ?_⟩
  · simp only [detectedColumns, computeColumns, if_neg h]
  · simp only [spawnedLaneCount, detectedColumns, computeColumns, if_neg h]
    rfl

/-- Witness for C3 at the out-of-range explicit lane count 10. -/
theorem C3_witness :
    detectedColumns [⟨64, 0, 1000, 1, 0⟩] 10 =
      List.insertionSort (fun a b : ℤ => a ≤ b)
        (collectCols (([⟨64, 0, 1000, 1, 0⟩] : List HitObject).map (fun o => o.x)) []) ∧
    spawnedLaneCount [] 10 = 0 :=
  C3_out_of_range_falls_back [⟨64, 0, 1000, 1, 0⟩] 10 (by decide)

/-- C4 (code bug): whenever the first `rand()` draw is 0 the generator still
consumes exactly two draws and feeds `u1 = 0` straight into `log` — there is
no guard and no resampling, contradicting the spec's required `u1 > 0` guard. -/
theorem C4_log_zero_not_resampled :
    ∀ rands : ℕ → ℕ, rands 0 = 0 →
    (generateBellCurveOffset rands).drawsConsumed = 2 ∧
    (generateBellCurveOffset rands).logDomainError = true := by
  intro rands h0
  constructor
  · rfl
  · simp [generateBellCurveOffset, h0]

/-- Witness for C4 at the all-zero random stream. -/
theorem C4_witness :
    (generateBellCurveOffset (fun _ => 0)).drawsConsumed = 2 ∧
    (generateBellCurveOffset (fun _ => 0)).logDomainError = true :=
  C4_log_zero_not_resampled (fun _ => 0) rfl

/-- C5: with jitter amplitude 0 (so every jitter draw yields
`(int)(z*0/3.0) = 0` for any finite Box-Muller variate), timing shift 0 and
start-time adjustment 0, a tap note at timestamp 1000 with no successor gets
pressTime 1000 and releaseTime 1050, and a hold note 1000→1400 gets
pressTime 1000 and releaseTime 1400. -/
theorem C5_zero_jitter_schedule :
    ∀ z1 z2 z3 z4 : ℚ,
    (computePressTime ⟨64, 192, 1000, 1, 0⟩ 0 (generateBellCurveOffsetVal z1 0) 0 = 1000 ∧
     computeReleaseTime ⟨64, 192, 1000, 1, 0⟩ none 0 (generateBellCurveOffsetVal z1 0)
       (generateBellCurveOffsetVal z2 0) 0 = 1050) ∧
    (computePressTime ⟨64, 192, 1000, 128, 1400⟩ 0 (generateBellCurveOffsetVal z3 0) 0 = 1000 ∧
     computeReleaseTime ⟨64, 192, 1000, 128, 1400⟩ none 0 (generateBellCurveOffsetVal z3 0)
       (generateBellCurveOffsetVal z4 0) 0 = 1400) := by
  intro z1 z2 z3 z4
  simp [computePressTime, computeReleaseTime, generateBellCurveOffsetVal_zero]

/-- C6: for every lane count L in [1,9] with no custom key table, the default
binding assigns pairwise-distinct keys to lanes 0..L−1, and for odd L the
middle lane L/2 is bound to VK_SPACE (32). -/
theorem C6_default_bindings_distinct_center :
    ∀ L : ℕ, 1 ≤ L → L ≤ 9 →
    ((List.range L).map (boundKey L)).Nodup ∧
    (L % 2 = 1 → boundKey L (L / 2) = 32) := by
  intro L h1 h9
  interval_cases L <;> exact ⟨by decide, by decide⟩

/-- Witness for C6 at the odd lane count 7. -/
theorem C6_witness :
    ((List.range 7).map (boundKey 7)).Nodup ∧
    (7 % 2 = 1 → boundKey 7 (7 / 2) = 32) :=
  C6_default_bindings_distinct_center 7 (by decide) (by decide)

/-- C7: auto lane detection is permutation-invariant for inputs with at most
9 distinct horizontal positions, and its lane array is sorted ascending. -/
theorem C7_auto_detection_canonical :
    ∀ (objs1 objs2 : List HitObject),
    List.Perm objs1 objs2 →
    (objs1.map (fun o => o.x)).toFinset.card ≤ 9 →
    detectedColumns objs1 0 = detectedColumns objs2 0 ∧
    List.Sorted (fun a b : ℤ => a ≤ b) (detectedColumns objs1 0) := by
  intro o1 o2 hperm hcard
  have hout : ¬ ((0 : ℤ) < 0 ∧ (0 : ℤ) ≤ 9) := by norm_num
  have hx : List.Perm (o1.map (fun o => o.x)) (o2.map (fun o => o.x)) := hperm.map _
  have hfin : (o1.map (fun o => o.x)).toFinset = (o2.map (fun o => o.x)).toFinset :=
    List.toFinset_eq_of_perm _ _ hx
  have hn1 : (collectCols (o1.map (fun o => o.x)) []).Nodup :=
    collectCols_nodup _ [] (by simp)
  have hn2 : (collectCols (o2.map (fun o => o.x)) []).Nodup :=
    collectCols_nodup _ [] (by simp)
  have h1 : (collectCols (o1.map (fun o => o.x)) []).toFinset =
      (o1.map (fun o => o.x)).toFinset := by
    have := collectCols_toFinset (o1.map (fun o => o.x)) [] (by simp) (by simpa using hcard)
    simpa using this
  have hcard2 : ((o2.map (fun o => o.x)).toFinset).card ≤ 9 := by
    rw [← hfin]; exact hcard
  have h2 : (collectCols (o2.map (fun o => o.x)) []).toFinset =
      (o2.map (fun o => o.x)).toFinset := by
    have := collectCols_toFinset (o2.map (fun o => o.x)) [] (by simp) (by simpa using hcard2)
    simpa using this
  have hmem : ∀ a, a ∈ collectCols (o1.map (fun o => o.x)) [] ↔
      a ∈ collectCols (o2.map (fun o => o.x)) [] := by
    intro a
    rw [← List.mem_toFinset, h1, hfin, ← h2, List.mem_toFinset]
  have hp : List.Perm (collectCols (o1.map (fun o => o.x)) [])
      (collectCols (o2.map (fun o => o.x)) []) :=
    (List.perm_ext_iff_of_nodup hn1 hn2).2 hmem
  rw [detectedColumns_auto o1 0 hout, detectedColumns_auto o2 0 hout]
  constructor
  · exact List.eq_of_perm_of_sorted
      (((List.perm_insertionSort _ _).trans hp).trans (List.perm_insertionSort _ _).symm)
      (List.sorted_insertionSort _ _) (List.sorted_insertionSort _ _)
  · exact List.sorted_insertionSort _ _

/-- Witness for C7: positions {64,192,320,448} in scrambled input order give
the same, ascending lane array [64,192,320,448]. -/
theorem C7_witness :
    detectedColumns [⟨320, 0, 0, 1, 0⟩, ⟨64, 0, 0, 1, 0⟩, ⟨448, 0, 0, 1, 0⟩,
      ⟨192, 0, 0, 1, 0⟩] 0 =
    detectedColumns [⟨64, 0, 0, 1, 0⟩, ⟨192, 0, 0, 1, 0⟩, ⟨320, 0, 0, 1, 0⟩,
      ⟨448, 0, 0, 1, 0⟩] 0 ∧
    detectedColumns [⟨320, 0, 0, 1, 0⟩, ⟨64, 0, 0, 1, 0⟩, ⟨448, 0, 0, 1, 0⟩,
      ⟨192, 0, 0, 1, 0⟩] 0 = [64, 192, 320, 448] :=
  ⟨(C7_auto_detection_canonical
      [⟨320, 0, 0, 1, 0⟩, ⟨64, 0, 0, 1, 0⟩, ⟨448, 0, 0, 1, 0⟩, ⟨192, 0, 0, 1, 0⟩]
      [⟨64, 0, 0, 1, 0⟩, ⟨192, 0, 0, 1, 0⟩, ⟨320, 0, 0, 1, 0⟩, ⟨448, 0, 0, 1, 0⟩]
      (by decide) (by decide)).1,
   by decide⟩

/-- C8: once a lane player observes the stop flag — at the per-object check or
inside either busy-wait — its event trace is exactly the events of the cleanly
completed prefix plus at most the pending press of the aborting iteration
(never a further key-down), independent of all later objects; and the stop
path's `releaseAllKeys` emits a key-up for every table entry reading pressed
and leaves the whole table unpressed. -/
theorem C8_cancellation_stops_and_releases :
    ∀ (enable : Bool) (key : ℕ) (pre : List ObjOracle) (o : ObjOracle)
      (post : List ObjOracle) (ks : List KeyState),
    (∀ x ∈ pre, cleanOracle x) → ¬ cleanOracle o →
    (playObjects enable key (pre ++ o :: post) =
      (completedEvents enable key pre.length ++ abortEvents enable key o, true,
        abortPressed enable o)) ∧
    (∀ s ∈ ks, s.is_pressed = true → Ev.release s.key ∈ (releaseAllKeys ks).1) ∧
    (∀ s ∈ (releaseAllKeys ks).2, s.is_pressed = false) := by
  intro enable key pre
  induction pre with
  | nil =>
      intro o post ks hpre ho
      refine ⟨?_, fun s hs hp => releaseAllKeys_mem_release ks s hs hp,
        fun s hs => releaseAllKeys_clears ks s hs⟩
      by_cases h1 : o.topFlag
      · simp [playObjects, completedEvents, abortEvents, abortPressed, h1]
      · by_cases h2 : true ∈ o.pressWaitFlags
        · simp [playObjects, completedEvents, abortEvents, abortPressed, h1, h2]
        · by_cases h3 : true ∈ o.releaseWaitFlags
          · simp [playObjects, completedEvents, abortEvents, abortPressed, h1, h2, h3]
          · exact absurd ⟨by simpa using h1, h2, h3⟩ ho
  | cons x rest ih =>
      intro o post ks hpre ho
      have hx : cleanOracle x := hpre x (List.mem_cons_self x rest)
      have hrest : ∀ y ∈ rest, cleanOracle y := fun y hy => hpre y (List.mem_cons_of_mem x hy)
      obtain ⟨hx1, hx2, hx3⟩ := hx
      refine ⟨?_, fun s hs hp => releaseAllKeys_mem_release ks s hs hp,
        fun s hs => releaseAllKeys_clears ks s hs⟩
      have IH := (ih o post ks hrest ho).1
      cases enable <;>
        simp [playObjects, hx1, hx2, hx3, IH, completedEvents, List.append_assoc]

/-- Witness for C8 at a one-object clean prefix followed by a top-check stop. -/
theorem C8_witness :
    (playObjects true 65 ([⟨false, [false], []⟩] ++ ⟨true, [], []⟩ :: [⟨false, [], []⟩]) =
      (completedEvents true 65 1 ++ abortEvents true 65 ⟨true, [], []⟩, true,
        abortPressed true ⟨true, [], []⟩)) ∧
    Ev.release 65 ∈ (releaseAllKeys [⟨65, true⟩]).1 :=
  ⟨(C8_cancellation_stops_and_releases true 65 [⟨false, [false], []⟩] ⟨true, [], []⟩
      [⟨false, [], []⟩] [⟨65, true⟩] (by decide) (by decide)).1,
   (C8_cancellation_stops_and_releases true 65 [⟨false, [false], []⟩] ⟨true, [], []⟩
      [⟨false, [], []⟩] [⟨65, true⟩] (by decide) (by decide)).2.1 ⟨65, true⟩ (by decide) rfl⟩

/-- C9: the two unused integer arguments and the per-call jitter-amplitude
argument of `clickHitObjects` never influence the observables — column
positions, key bindings, lane buckets and computed press/release schedules —
because the per-call amplitude is only copied into the unread
`ThreadData.offset` field while every jitter draw reads the process-wide
amplitude, whose initial value is 30. -/
theorem C9_unused_and_shadowed_args_ignored :
    ∀ (hitObjects : List HitObject) (u1 u2 u1s u2s adj : ℤ) (en : Bool)
      (offA offAs L : ℤ) (ck : Option (List ℕ)) (g shift : ℤ) (zs : ℕ → ℕ → ℚ × ℚ),
    clickHitObjects hitObjects u1 u2 adj en offA L ck g shift zs =
      clickHitObjects hitObjects u1s u2s adj en offAs L ck g shift zs ∧
    offsetInitial = 30 := by
  intro hitObjects u1 u2 u1s u2s adj en offA offAs L ck g shift zs
  exact ⟨rfl, rfl⟩

/-- C10: `setStopClicking v` stores `v` into the stop flag and force-releases
every currently-pressed key, clearing its pressed flag — also for `v = FALSE`
— and an immediately repeated call (with any value) releases nothing further. -/
theorem C10_setStopClicking_forces_release :
    ∀ (v w : Bool) (st : SysState),
    (setStopClicking v st).2.stopClicking = v ∧
    (∀ s ∈ st.keyStates, s.is_pressed = true → Ev.release s.key ∈ (setStopClicking v st).1) ∧
    (∀ s ∈ (setStopClicking v st).2.keyStates, s.is_pressed = false) ∧
    (setStopClicking w (setStopClicking v st).2).1 = [] := by
  intro v w st
  refine ⟨rfl, ?_, ?_, ?_⟩
  · intro s hs hp
    exact releaseAllKeys_mem_release st.keyStates s hs hp
  · intro s hs
    exact releaseAllKeys_clears st.keyStates s hs
  · exact releaseAllKeys_no_pressed _ (fun s hs => releaseAllKeys_clears st.keyStates s hs)

/-- Witness for C10: clearing the flag with one pressed key releases it, and a
repeated call emits nothing. -/
theorem C10_witness :
    (setStopClicking false ⟨true, [⟨65, true⟩, ⟨83, false⟩]⟩).2.stopClicking = false ∧
    Ev.release 65 ∈ (setStopClicking false ⟨true, [⟨65, true⟩, ⟨83, false⟩]⟩).1 ∧
    (setStopClicking true (setStopClicking false ⟨true, [⟨65, true⟩, ⟨83, false⟩]⟩).2).1 = [] :=
  ⟨(C10_setStopClicking_forces_release false true ⟨true, [⟨65, true⟩, ⟨83, false⟩]⟩).1,
   (C10_setStopClicking_forces_release false true ⟨true, [⟨65, true⟩, ⟨83, false⟩]⟩).2.1
     ⟨65, true⟩ (by decide) rfl,
   (C10_setStopClicking_forces_release false true ⟨true, [⟨65, true⟩, ⟨83, false⟩]⟩).2.2.2⟩

end PrismaTC
